import Mathlib

/-!
Verification of the answer-comparison CLI (`main.go`): a retry orchestrator
that queries two LLM backends (Gemini, Groq), judges the two answers for
semantic equivalence with a third call, and retries until agreement or the
retry budget is exhausted.

The embedding models the remote services as an oracle (`AttemptEnv` per
attempt index) giving each external call's outcome, and translates the Go
functions `processQuestion`, `compareResponses`, `formatResponse`,
`getGeminiResponse` and the prompt construction directly.
-/

namespace AnswersOnly

/-! ## Go string primitives -/

/-- The white-space characters recognised by Go `unicode.IsSpace`
(Unicode White_Space property). -/
def goIsSpace (c : Char) : Bool :=
  c == '\t' || c == '\n' || c == '\u000B' || c == '\u000C' || c == '\r' || c == ' ' ||
  c == '\u0085' || c == '\u00A0' || c == '\u1680' ||
  (0x2000 ≤ c.toNat && c.toNat ≤ 0x200A) ||
  c == '\u2028' || c == '\u2029' || c == '\u202F' || c == '\u205F' || c == '\u3000'

/-- Go `strings.TrimSpace`: drop leading and trailing white space. -/
def goTrimSpace (s : String) : String :=
  ⟨((s.data.dropWhile goIsSpace).reverse.dropWhile goIsSpace).reverse⟩

/-- Go `strings.ToLower` on the ASCII fragment (the only case mapping
relevant to comparison with the ASCII literal "true"). -/
def goToLower (s : String) : String :=
  ⟨s.data.map Char.toLower⟩

/-- Core of `strings.ReplaceAll` for a non-empty pattern: replace each
non-overlapping occurrence, scanning left to right.  The recursion is
structural on `fuel`; starting it at the text's length is enough, because a
non-empty match consumes at least one character of text per unit of
fuel. -/
def replaceCore (pat rep : List Char) : Nat → List Char → List Char
  | _, [] => []
  | 0, s => s
  | fuel + 1, c :: rest =>
    if List.isPrefixOf pat (c :: rest) then
      rep ++ replaceCore pat rep fuel (List.drop (pat.length - 1) rest)
    else
      c :: replaceCore pat rep fuel rest

/-- Go `strings.ReplaceAll s pat rep`.  An empty pattern makes Go insert
`rep` at every rune boundary, including both ends. -/
def goReplaceAll (s pat rep : String) : String :=
  match pat.data with
  | [] => ⟨rep.data ++ List.foldr (fun c acc => c :: (rep.data ++ acc)) [] s.data⟩
  | _ :: _ => ⟨replaceCore pat.data rep.data s.data.length s.data⟩

/-- Go `fmt` rendering of an error value under the `%v` verb: a `nil`
error prints as "<nil>", otherwise its message. -/
def fmtErr : Option String → String
  | none => "<nil>"
  | some e => e

/-! ## Data model -/

instance {ε α : Type} [DecidableEq ε] [DecidableEq α] : DecidableEq (Except ε α) :=
  fun a b =>
    match a, b with
    | .error e, .error f => decidable_of_iff (e = f) (by simp)
    | .error _, .ok _ => .isFalse (by simp)
    | .ok _, .error _ => .isFalse (by simp)
    | .ok x, .ok y => decidable_of_iff (x = y) (by simp)

/-- `Response` struct from main.go: source identifier plus content text. -/
structure Response where
  Source : String
  Content : String
deriving DecidableEq

/-- `Config` struct from main.go.  `MaxRetries` is a Go `int`. -/
structure Config where
  GeminiKey : String
  GroqKey : String
  MaxRetries : Int
deriving DecidableEq

/-- One part of a genai candidate's content: either a text part or some
non-text part (e.g. a blob), which the type assertion `.(genai.Text)`
would reject. -/
inductive GenaiPart where
  | text (s : String)
  | nonText
deriving DecidableEq

/-- The content of a genai candidate: a list of parts. -/
structure GenaiContent where
  Parts : List GenaiPart
deriving DecidableEq

/-- One genai candidate. -/
structure GenaiCandidate where
  Content : GenaiContent
deriving DecidableEq

/-- A genai `GenerateContentResponse`: a list of candidates. -/
structure GenaiResponse where
  Candidates : List GenaiCandidate
deriving DecidableEq

/-- Oracle for one attempt of the retry loop: the outcome of the Gemini
call, of the Groq call, and of the judge's generation call (the raw verdict
text, before `compareResponses` interprets it).  Errors carry their
message. -/
structure AttemptEnv where
  gemini : Except String Response
  groq : Except String Response
  judgeRaw : Except String String
deriving DecidableEq

/-- The four loop-scoped variables of `processQuestion` (main.go lines
140-142): the last stored response pointer and last recorded error for each
backend.  All start out nil. -/
structure LoopState where
  geminiResp : Option Response
  groqResp : Option Response
  lastGeminiErr : Option String
  lastGroqErr : Option String
deriving DecidableEq

/-- Initial state of the loop variables (all nil). -/
def initialState : LoopState := ⟨none, none, none, none⟩

/-- An external call made by the orchestrator, tagged with the attempt
index that issued it. -/
inductive CallEvent where
  | geminiCall (attempt : Nat)
  | groqCall (attempt : Nat)
  | judgeCall (attempt : Nat)
deriving DecidableEq

/-- The attempt index of a call event. -/
def eventAttempt : CallEvent → Nat
  | .geminiCall n => n
  | .groqCall n => n
  | .judgeCall n => n

/-- Result of running the retry loop: the early-return value if an attempt
succeeded, the final loop variables, the number of attempts entered, and
the trace of external calls. -/
structure LoopOut where
  res : Option String
  st : LoopState
  count : Nat
  events : List CallEvent
deriving DecidableEq

/-- Result of `processQuestion`: the Go `(string, error)` pair as an
`Except`, plus the attempt count and call trace for observability. -/
structure RunResult where
  result : Except String String
  attemptsRun : Nat
  calls : List CallEvent
deriving DecidableEq

/-! ## Source embeddings -/

/-- The prompt built by `getGeminiResponse` (main.go lines 203-210): the
fixed multiple-choice instruction template with the question substituted
for the trailing `%s`. -/
def geminiEnhancedPrompt (question : String) : String :=
  "If this is a multiple choice question, please:\n1. Analyze each option carefully\n2. Provide a clear \"Yes\" or \"No\" for each option\n3. Explain the reasoning for each option\n4. At the end, summarize which options are correct\n\nHere\x27s the question:\n" ++ question

/-- The prompt built by `getGroqResponse` (main.go lines 228-235): the
fixed multiple-choice instruction template with the question substituted
for the trailing `%s`. -/
def groqEnhancedPrompt (question : String) : String :=
  "If this is a multiple choice question, please:\n1. Analyze each option carefully\n2. Provide a clear \"Yes\" or \"No\" for each option\n3. Explain the reasoning for each option\n4. At the end, summarize which options are correct\n\nHere\x27s the question:\n" ++ question

/-- The Go expression `resp.Candidates[0].Content.Parts[0].(genai.Text)`
(main.go line 220).  `none` models a runtime panic: index out of range on
an empty candidate or part list, or a failed type assertion on a non-text
first part. -/
def extractFirstText (resp : GenaiResponse) : Option String :=
  match resp.Candidates with
  | [] => none
  | cand :: _ =>
    match cand.Content.Parts with
    | [] => none
    | GenaiPart.text s :: _ => some s
    | GenaiPart.nonText :: _ => none

/-- `getGeminiResponse` (main.go lines 195-222) after the client is built,
with the remote `GenerateContent` call abstracted as its outcome
`callResult`.  The outer `Option` is `none` exactly when the extraction of
the first text part panics; otherwise the function returns the Go
`(*Response, error)` pair. -/
def getGeminiResponse (callResult : Except String GenaiResponse) :
    Option (Except String Response) :=
  match callResult with
  | .error e => some (.error ("failed to generate Gemini response: " ++ e))
  | .ok resp =>
    match extractFirstText resp with
    | none => none
    | some s => some (.ok ⟨"Gemini", s⟩)

/-- `compareResponses` (main.go lines 286-310) with the judge's generation
call abstracted as its outcome: on success the verdict is the Boolean
`strings.ToLower(strings.TrimSpace(text)) == "true"`; a generation error is
wrapped and propagated. -/
def compareResponses (generation : Except String String) : Except String Bool :=
  match generation with
  | .error e => .error ("failed to compare responses using Gemini: " ++ e)
  | .ok raw => .ok (goToLower (goTrimSpace raw) == "true")

/-- `formatResponse` (main.go lines 312-317): insert a newline before every
occurrence of "Option" and two newlines before every occurrence of
"Summary". -/
def formatResponse (response : String) : String :=
  goReplaceAll (goReplaceAll response "Option" "\nOption") "Summary" "\n\nSummary"

/-- The early-return value of one iteration of the retry loop (main.go
lines 144-172): `some content` when both backend calls succeed and the
judge verdict is true (the loop returns Gemini's content), `none` when the
iteration falls through to the next attempt. -/
def attemptResult (e : AttemptEnv) : Option String :=
  match e.gemini with
  | .error _ => none
  | .ok geminiResp =>
    match e.groq with
    | .error _ => none
    | .ok _ =>
      match compareResponses e.judgeRaw with
      | .error _ => none
      | .ok similar => if similar then some geminiResp.Content else none

/-- The effect of one loop iteration on the loop variables (main.go lines
146-157): the Gemini slot is reassigned on every iteration (to nil on
error), the Groq slot only when the Gemini call succeeded; each error
overwrites that backend's last-error slot.  A judge error or a false
verdict leaves the variables as they are. -/
def attemptNewState (e : AttemptEnv) (st : LoopState) : LoopState :=
  match e.gemini with
  | .error err => { st with geminiResp := none, lastGeminiErr := some err }
  | .ok geminiResp =>
    match e.groq with
    | .error err =>
      { st with geminiResp := some geminiResp, groqResp := none, lastGroqErr := some err }
    | .ok groqResp =>
      { st with geminiResp := some geminiResp, groqResp := some groqResp }

/-- The external calls issued by one loop iteration at attempt index `n`:
the Groq call happens only if the Gemini call succeeded, the judge call
only if both backend calls succeeded. -/
def attemptEvents (e : AttemptEnv) (n : Nat) : List CallEvent :=
  match e.gemini with
  | .error _ => [.geminiCall n]
  | .ok _ =>
    match e.groq with
    | .error _ => [.geminiCall n, .groqCall n]
    | .ok _ => [.geminiCall n, .groqCall n, .judgeCall n]

/-- The retry loop `for attempt := 0; attempt < maxRetries; attempt++`
(main.go lines 144-172), as a recursion on the number of remaining
iterations.  `start` is the attempt index of the first remaining
iteration. -/
def runLoop (env : Nat → AttemptEnv) (start : Nat) : Nat → LoopState → LoopOut
  | 0, st => ⟨none, st, 0, []⟩
  | n + 1, st =>
    let e := env start
    match attemptResult e with
    | some content => ⟨some content, attemptNewState e st, 1, attemptEvents e start⟩
    | none =>
      let out := runLoop env (start + 1) n (attemptNewState e st)
      ⟨out.res, out.st, out.count + 1, attemptEvents e start ++ out.events⟩

/-- The post-loop output of `processQuestion` (main.go lines 174-192): if
neither response slot is set, an error embedding the last recorded error of
each backend; otherwise the formatted side-by-side presentation, with
"Error getting response" standing in for a missing side. -/
def exhaustedOutput (maxRetries : Int) (st : LoopState) : Except String String :=
  match st.geminiResp, st.groqResp with
  | none, none =>
    .error ("failed to get responses after " ++ toString maxRetries ++
      " attempts. Gemini error: " ++ fmtErr st.lastGeminiErr ++
      ", Groq error: " ++ fmtErr st.lastGroqErr)
  | g, q =>
    let geminiContent := match g with
      | some r => formatResponse r.Content
      | none => "Error getting response"
    let groqContent := match q with
      | some r => formatResponse r.Content
      | none => "Error getting response"
    .ok ("Responses after " ++ toString maxRetries ++
      " attempts:\n\nGemini Response:\n" ++ geminiContent ++
      "\n\nGroq Response:\n" ++ groqContent)

/-- `processQuestion` (main.go lines 139-193) over the attempt oracle
`env`: run up to `MaxRetries` attempts (none when the configured value is
zero or negative, as in Go's counted loop), returning early with Gemini's
content on a true verdict, and otherwise building the exhausted output from
the final loop variables. -/
def processQuestion (env : Nat → AttemptEnv) (config : Config) : RunResult :=
  let out := runLoop env 0 config.MaxRetries.toNat initialState
  match out.res with
  | some content => ⟨.ok content, out.count, out.events⟩
  | none => ⟨exhaustedOutput config.MaxRetries out.st, out.count, out.events⟩

/-! ## Startup and interactive session -/

/-- The startup environment: whether the `.env` file loads, and the two
key values read from the environment. -/
structure StartupEnv where
  envLoadOk : Bool
  geminiKey : String
  groqKey : String
deriving DecidableEq

/-- Startup (main.go lines 69-89): a failed `.env` load or a missing key is
fatal (`none`); otherwise the immutable `Config` is built. -/
def startup (e : StartupEnv) (maxRetries : Int) : Option Config :=
  if !e.envLoadOk then none
  else if e.geminiKey == "" || e.groqKey == "" then none
  else some ⟨e.geminiKey, e.groqKey, maxRetries⟩

/-- Outcome of one turn of the interactive loop after `processQuestion`
returns.  `fatal` is never produced at runtime; it exists so that
non-fatality is a statement, not a typing accident. -/
inductive SessionOutcome where
  | printed (response : String)
  | loggedError (msg : String)
  | fatal (msg : String)
deriving DecidableEq

/-- The interactive loop's handling of a `processQuestion` outcome
(main.go lines 126-132): an error is logged and the loop continues,
otherwise the response is printed and the loop continues. -/
def sessionStep (r : Except String String) : SessionOutcome :=
  match r with
  | .error e => .loggedError ("Error processing question: " ++ e)
  | .ok s => .printed ("\nResponse:\n" ++ s ++ "\n")

/-! ## Auxiliary definitions for the analysis -/

/-- The `Option`-valued view of a backend call outcome: the value stored in
the corresponding response variable right after the Go multiple assignment
(`nil` on error). -/
def respOf : Except String Response → Option Response
  | .ok r => some r
  | .error _ => none

/-- The loop variables after `n` completed (non-returning) iterations
starting at attempt index `start`. -/
def foldAttempts (env : Nat → AttemptEnv) : Nat → Nat → LoopState → LoopState
  | _, 0, st => st
  | start, n + 1, st => foldAttempts env (start + 1) n (attemptNewState (env start) st)

/-! ## Loop lemmas -/

theorem runLoop_zero (env : Nat → AttemptEnv) (start : Nat) (st : LoopState) :
    runLoop env start 0 st = ⟨none, st, 0, []⟩ := rfl

theorem runLoop_succ_of_success (env : Nat → AttemptEnv) (start n : Nat) (st : LoopState)
    (c : String) (h : attemptResult (env start) = some c) :
    runLoop env start (n + 1) st =
      ⟨some c, attemptNewState (env start) st, 1, attemptEvents (env start) start⟩ := by
  simp [runLoop, h]

theorem runLoop_succ_of_fail (env : Nat → AttemptEnv) (start n : Nat) (st : LoopState)
    (h : attemptResult (env start) = none) :
    runLoop env start (n + 1) st =
      ⟨(runLoop env (start + 1) n (attemptNewState (env start) st)).res,
       (runLoop env (start + 1) n (attemptNewState (env start) st)).st,
       (runLoop env (start + 1) n (attemptNewState (env start) st)).count + 1,
       attemptEvents (env start) start ++
         (runLoop env (start + 1) n (attemptNewState (env start) st)).events⟩ := by
  simp [runLoop, h]

theorem attemptEvents_mem (e : AttemptEnv) (n : Nat) :
    ∀ ev ∈ attemptEvents e n, eventAttempt ev = n := by
  intro ev hev
  rcases e with ⟨g, q, j⟩
  cases g with
  | error err =>
    simp [attemptEvents] at hev
    subst hev; rfl
  | ok gr =>
    cases q with
    | error err =>
      simp [attemptEvents] at hev
      rcases hev with rfl | rfl <;> rfl
    | ok qr =>
      simp [attemptEvents] at hev
      rcases hev with rfl | rfl | rfl <;> rfl

theorem attemptNewState_geminiResp (e : AttemptEnv) (st : LoopState) :
    (attemptNewState e st).geminiResp = respOf e.gemini := by
  rcases e with ⟨g, q, j⟩
  cases g <;> cases q <;> rfl

theorem attemptNewState_gemini_error (e : AttemptEnv) (st : LoopState) (err : String)
    (h : e.gemini = .error err) :
    attemptNewState e st = { st with geminiResp := none, lastGeminiErr := some err } := by
  rcases e with ⟨g, q, j⟩
  cases h
  rfl

theorem attemptNewState_both_ok (e : AttemptEnv) (st : LoopState) (a b : Response)
    (hA : e.gemini = .ok a) (hB : e.groq = .ok b) :
    attemptNewState e st = { st with geminiResp := some a, groqResp := some b } := by
  rcases e with ⟨g, q, j⟩
  cases hA
  cases hB
  rfl

theorem attemptResult_gemini_error (e : AttemptEnv) (err : String)
    (h : e.gemini = .error err) : attemptResult e = none := by
  rcases e with ⟨g, q, j⟩
  cases h
  rfl

/-- If the first `k` attempts fall through and attempt `start + k` returns
`some c`, the loop stops there: it returns `c`, enters exactly `k + 1`
iterations, and every external call it made belongs to an attempt index at
most `start + k`. -/
theorem runLoop_success (env : Nat → AttemptEnv) (c : String) :
    ∀ (k start n : Nat) (st : LoopState), k < n →
    (∀ j, j < k → attemptResult (env (start + j)) = none) →
    attemptResult (env (start + k)) = some c →
    (runLoop env start n st).res = some c ∧
    (runLoop env start n st).count = k + 1 ∧
    ∀ ev ∈ (runLoop env start n st).events, eventAttempt ev ≤ start + k := by
  intro k
  induction k with
  | zero =>
    intro start n st hk hprev hsucc
    obtain ⟨n', rfl⟩ : ∃ n', n = n' + 1 := ⟨n - 1, by omega⟩
    rw [Nat.add_zero] at hsucc
    rw [runLoop_succ_of_success env start n' st c hsucc]
    refine ⟨rfl, rfl, ?_⟩
    intro ev hev
    have := attemptEvents_mem (env start) start ev hev
    omega
  | succ k ih =>
    intro start n st hk hprev hsucc
    obtain ⟨n', rfl⟩ : ∃ n', n = n' + 1 := ⟨n - 1, by omega⟩
    have h0 : attemptResult (env start) = none := by
      have := hprev 0 (Nat.succ_pos k)
      simpa using this
    rw [runLoop_succ_of_fail env start n' st h0]
    have hrec := ih (start + 1) n' (attemptNewState (env start) st) (by omega)
      (fun j hj => by
        have := hprev (j + 1) (by omega)
        have harith : start + (j + 1) = start + 1 + j := by omega
        rwa [harith] at this)
      (by
        have harith : start + (k + 1) = start + 1 + k := by omega
        rwa [harith] at hsucc)
    refine ⟨hrec.1, by rw [hrec.2.1], ?_⟩
    intro ev hev
    simp at hev
    rcases hev with hev | hev
    · have := attemptEvents_mem (env start) start ev hev
      omega
    · have := hrec.2.2 ev hev
      omega

/-- If every remaining attempt falls through, the loop runs all of them:
no early return, the full iteration count, and the final loop variables are
the fold of the per-attempt variable updates. -/
theorem runLoop_exhaust (env : Nat → AttemptEnv) :
    ∀ (n start : Nat) (st : LoopState),
    (∀ j, j < n → attemptResult (env (start + j)) = none) →
    (runLoop env start n st).res = none ∧
    (runLoop env start n st).count = n ∧
    (runLoop env start n st).st = foldAttempts env start n st := by
  intro n
  induction n with
  | zero =>
    intro start st _
    exact ⟨rfl, rfl, rfl⟩
  | succ n ih =>
    intro start st h
    have h0 : attemptResult (env start) = none := by
      have := h 0 (Nat.succ_pos n)
      simpa using this
    rw [runLoop_succ_of_fail env start n st h0]
    have hrec := ih (start + 1) (attemptNewState (env start) st) (fun j hj => by
      have := h (j + 1) (by omega)
      have harith : start + (j + 1) = start + 1 + j := by omega
      rwa [harith] at this)
    exact ⟨hrec.1, by rw [hrec.2.1], by rw [hrec.2.2]; rfl⟩

/-- The loop never enters more iterations than its budget. -/
theorem runLoop_count_le (env : Nat → AttemptEnv) :
    ∀ (n start : Nat) (st : LoopState), (runLoop env start n st).count ≤ n := by
  intro n
  induction n with
  | zero => intro start st; exact Nat.le_refl 0
  | succ n ih =>
    intro start st
    cases h : attemptResult (env start) with
    | some c =>
      rw [runLoop_succ_of_success env start n st c h]
      show 1 ≤ n + 1
      omega
    | none =>
      rw [runLoop_succ_of_fail env start n st h]
      have := ih (start + 1) (attemptNewState (env start) st)
      simpa using Nat.succ_le_succ this

/-- After at least one completed iteration the Gemini response variable
holds exactly the last attempt's Gemini outcome: it is reassigned on every
iteration. -/
theorem foldAttempts_geminiResp (env : Nat → AttemptEnv) :
    ∀ (n start : Nat) (st : LoopState),
    (foldAttempts env start (n + 1) st).geminiResp = respOf (env (start + n)).gemini := by
  intro n
  induction n with
  | zero =>
    intro start st
    show (attemptNewState (env start) st).geminiResp = respOf (env (start + 0)).gemini
    rw [Nat.add_zero]
    exact attemptNewState_geminiResp (env start) st
  | succ n ih =>
    intro start st
    show (foldAttempts env (start + 1) (n + 1) (attemptNewState (env start) st)).geminiResp = _
    rw [ih (start + 1) (attemptNewState (env start) st)]
    have harith : start + 1 + n = start + (n + 1) := by omega
    rw [harith]

/-- If the Gemini call fails on every one of `n + 1` consecutive attempts,
the loop variables afterwards: no responses beyond what was there for Groq,
the last Gemini error recorded, and the Groq slots untouched. -/
theorem foldAttempts_gemini_fail (env : Nat → AttemptEnv) (errs : Nat → String) :
    ∀ (n start : Nat) (st : LoopState),
    (∀ j, j < n + 1 → (env (start + j)).gemini = .error (errs (start + j))) →
    foldAttempts env start (n + 1) st =
      ⟨none, st.groqResp, some (errs (start + n)), st.lastGroqErr⟩ := by
  intro n
  induction n with
  | zero =>
    intro start st h
    have h0 : (env start).gemini = .error (errs start) := by
      have := h 0 (Nat.succ_pos 0)
      simpa using this
    show attemptNewState (env start) st = _
    rw [attemptNewState_gemini_error (env start) st (errs start) h0]
    rfl
  | succ n ih =>
    intro start st h
    have h0 : (env start).gemini = .error (errs start) := by
      have := h 0 (Nat.succ_pos (n + 1))
      simpa using this
    show foldAttempts env (start + 1) (n + 1) (attemptNewState (env start) st) = _
    rw [ih (start + 1) (attemptNewState (env start) st) (fun j hj => by
      have := h (j + 1) (by omega)
      have harith : start + (j + 1) = start + 1 + j := by omega
      rwa [harith] at this)]
    rw [attemptNewState_gemini_error (env start) st (errs start) h0]
    have harith : start + 1 + n = start + (n + 1) := by omega
    rw [harith]

/-- If both backend calls succeed on every one of `n + 1` consecutive
attempts with the same responses, the loop variables afterwards hold those
responses and the error slots are untouched. -/
theorem foldAttempts_both_ok (env : Nat → AttemptEnv) (a b : Response)
    (h : ∀ j, (env j).gemini = .ok a ∧ (env j).groq = .ok b) :
    ∀ (n start : Nat) (st : LoopState),
    foldAttempts env start (n + 1) st =
      ⟨some a, some b, st.lastGeminiErr, st.lastGroqErr⟩ := by
  intro n
  induction n with
  | zero =>
    intro start st
    show attemptNewState (env start) st = _
    rw [attemptNewState_both_ok (env start) st a b (h start).1 (h start).2]
  | succ n ih =>
    intro start st
    show foldAttempts env (start + 1) (n + 1) (attemptNewState (env start) st) = _
    rw [ih (start + 1) (attemptNewState (env start) st),
      attemptNewState_both_ok (env start) st a b (h start).1 (h start).2]

/-- The attempt count reported by `processQuestion` is the loop's iteration
count, whichever way the loop ended. -/
theorem processQuestion_attemptsRun (env : Nat → AttemptEnv) (config : Config) :
    (processQuestion env config).attemptsRun =
      (runLoop env 0 config.MaxRetries.toNat initialState).count := by
  unfold processQuestion
  cases h : (runLoop env 0 config.MaxRetries.toNat initialState).res <;> simp [h]

theorem processQuestion_of_res_some (env : Nat → AttemptEnv) (config : Config) (c : String)
    (h : (runLoop env 0 config.MaxRetries.toNat initialState).res = some c) :
    processQuestion env config =
      ⟨.ok c, (runLoop env 0 config.MaxRetries.toNat initialState).count,
       (runLoop env 0 config.MaxRetries.toNat initialState).events⟩ := by
  simp only [processQuestion]
  rw [h]

theorem processQuestion_of_res_none (env : Nat → AttemptEnv) (config : Config)
    (h : (runLoop env 0 config.MaxRetries.toNat initialState).res = none) :
    processQuestion env config =
      ⟨exhaustedOutput config.MaxRetries (runLoop env 0 config.MaxRetries.toNat initialState).st,
       (runLoop env 0 config.MaxRetries.toNat initialState).count,
       (runLoop env 0 config.MaxRetries.toNat initialState).events⟩ := by
  simp only [processQuestion]
  rw [h]

theorem attemptEvents_gemini_error (e : AttemptEnv) (n : Nat) (err : String)
    (h : e.gemini = .error err) : attemptEvents e n = [.geminiCall n] := by
  rcases e with ⟨g, q, j⟩
  cases h
  rfl

theorem attemptNewState_groq_error (e : AttemptEnv) (st : LoopState) (a : Response)
    (err : String) (hA : e.gemini = .ok a) (hB : e.groq = .error err) :
    attemptNewState e st =
      { st with geminiResp := some a, groqResp := none, lastGroqErr := some err } := by
  rcases e with ⟨g, q, j⟩
  cases hA
  cases hB
  rfl

theorem attemptResult_groq_error (e : AttemptEnv) (err : String)
    (h : e.groq = .error err) : attemptResult e = none := by
  rcases e with ⟨g, q, j⟩
  cases h
  cases g <;> rfl

/-- If on every one of `n + 1` consecutive attempts the Gemini call
succeeds with `a` and the Groq call fails, the loop variables afterwards
hold Gemini's answer, an empty Groq slot, and the last Groq error. -/
theorem foldAttempts_groq_fail (env : Nat → AttemptEnv) (a : Response) (qerrs : Nat → String) :
    ∀ (n start : Nat) (st : LoopState),
    (∀ j, j < n + 1 →
      (env (start + j)).gemini = .ok a ∧ (env (start + j)).groq = .error (qerrs (start + j))) →
    foldAttempts env start (n + 1) st =
      ⟨some a, none, st.lastGeminiErr, some (qerrs (start + n))⟩ := by
  intro n
  induction n with
  | zero =>
    intro start st h
    have h0 := h 0 (Nat.succ_pos 0)
    rw [Nat.add_zero] at h0
    show attemptNewState (env start) st = _
    rw [attemptNewState_groq_error (env start) st a (qerrs start) h0.1 h0.2, Nat.add_zero]
  | succ n ih =>
    intro start st h
    have h0 := h 0 (Nat.succ_pos (n + 1))
    rw [Nat.add_zero] at h0
    show foldAttempts env (start + 1) (n + 1) (attemptNewState (env start) st) = _
    rw [ih (start + 1) (attemptNewState (env start) st) (fun j hj => by
      have := h (j + 1) (by omega)
      have harith : start + (j + 1) = start + 1 + j := by omega
      rwa [harith] at this)]
    rw [attemptNewState_groq_error (env start) st a (qerrs start) h0.1 h0.2]
    have harith : start + 1 + n = start + (n + 1) := by omega
    rw [harith]

/-- If the Gemini call fails on every attempt of a positive budget, the run
exhausts all attempts and returns the no-answers error: the last Gemini
error together with the never-set (nil) Groq error. -/
theorem processQuestion_all_gemini_fail (env : Nat → AttemptEnv) (config : Config)
    (errs : Nat → String) (hm : 0 < config.MaxRetries)
    (h : ∀ j, j < config.MaxRetries.toNat → (env j).gemini = .error (errs j)) :
    (processQuestion env config).attemptsRun = config.MaxRetries.toNat ∧
    (processQuestion env config).result =
      Except.error ("failed to get responses after " ++ toString config.MaxRetries ++
        " attempts. Gemini error: " ++ errs (config.MaxRetries.toNat - 1) ++
        ", Groq error: " ++ fmtErr none) := by
  obtain ⟨n, hn⟩ : ∃ n, config.MaxRetries.toNat = n + 1 :=
    ⟨config.MaxRetries.toNat - 1, by omega⟩
  have hfall : ∀ j, j < config.MaxRetries.toNat → attemptResult (env j) = none :=
    fun j hj => attemptResult_gemini_error (env j) (errs j) (h j hj)
  have hloop := runLoop_exhaust env config.MaxRetries.toNat 0 initialState
    (fun j hj => by simpa using hfall j hj)
  have hpq := processQuestion_of_res_none env config hloop.1
  constructor
  · rw [hpq]
    exact hloop.2.1
  · rw [hpq]
    show exhaustedOutput config.MaxRetries
      (runLoop env 0 config.MaxRetries.toNat initialState).st = _
    rw [hloop.2.2, hn,
      foldAttempts_gemini_fail env errs n 0 initialState (fun j hj => by
        simpa using h j (by omega))]
    have hidx : n + 1 - 1 = 0 + n := by omega
    rw [hidx]
    rfl

/-! ## Claim theorems -/

/-- C1: If attempt `k` is reached (no earlier attempt returned) and on
attempt `k` the Gemini call succeeds, the Groq call succeeds, and the judge
verdict is true, then the orchestrator stops at attempt `k`: it returns
exactly Gemini's answer content, enters exactly `k + 1` attempts, and makes
no backend or judge call belonging to any later attempt, regardless of the
remaining retry budget. -/
theorem claim1_stops_at_first_agreement (env : Nat → AttemptEnv) (config : Config)
    (k : Nat) (a b : Response) (raw : String)
    (hk : (k : Int) < config.MaxRetries)
    (hprev : ∀ j, j < k → attemptResult (env j) = none)
    (hA : (env k).gemini = .ok a) (hB : (env k).groq = .ok b)
    (hJ : (env k).judgeRaw = .ok raw)
    (hT : goToLower (goTrimSpace raw) = "true") :
    (processQuestion env config).result = Except.ok a.Content ∧
    (processQuestion env config).attemptsRun = k + 1 ∧
    ∀ ev ∈ (processQuestion env config).calls, eventAttempt ev ≤ k := by
  have hkN : k < config.MaxRetries.toNat := by omega
  have hres : attemptResult (env k) = some a.Content := by
    simp [attemptResult, compareResponses, hA, hB, hJ, hT]
  have hs := runLoop_success env a.Content k 0 config.MaxRetries.toNat initialState hkN
    (fun j hj => by simpa using hprev j hj) (by simpa using hres)
  have hpq := processQuestion_of_res_some env config a.Content hs.1
  refine ⟨?_, ?_, ?_⟩
  · rw [hpq]
  · rw [hpq]
    exact hs.2.1
  · rw [hpq]
    intro ev hev
    have := hs.2.2 ev hev
    omega

def envAgree : Nat → AttemptEnv :=
  fun _ => ⟨.ok ⟨"Gemini", "A"⟩, .ok ⟨"Groq", "B"⟩, .ok "true"⟩

def cfgThree : Config := ⟨"gkey", "qkey", 3⟩

/-- Witness for C1: with both backends succeeding and the judge answering
"true" on attempt 0 of a 3-attempt budget, the run returns "A" after one
attempt. -/
theorem claim1_witness :
    (processQuestion envAgree cfgThree).result = Except.ok "A" ∧
    (processQuestion envAgree cfgThree).attemptsRun = 1 :=
  have h := claim1_stops_at_first_agreement envAgree cfgThree 0 ⟨"Gemini", "A"⟩
    ⟨"Groq", "B"⟩ "true" (by decide) (fun j hj => absurd hj (Nat.not_lt_zero j))
    rfl rfl rfl (by decide)
  ⟨h.1, h.2.1⟩

/-- C4: When the judge's underlying generation call succeeds,
`compareResponses` never returns an error, and it returns true exactly when
the trimmed, lowercased response text equals the literal "true"; the listed
near-miss responses all yield false. -/
theorem claim4_verdict_literal_equality :
    (∀ raw, ∃ b, compareResponses (Except.ok raw) = Except.ok b) ∧
    (∀ raw, compareResponses (Except.ok raw) = Except.ok true ↔
      goToLower (goTrimSpace raw) = "true") ∧
    compareResponses (Except.ok " TRUE\n") = Except.ok true ∧
    compareResponses (Except.ok "True.") = Except.ok false ∧
    compareResponses (Except.ok "no") = Except.ok false ∧
    compareResponses (Except.ok "") = Except.ok false ∧
    compareResponses (Except.ok "yes, they are semantically equivalent") =
      Except.ok false := by
  refine ⟨fun raw => ⟨_, rfl⟩, fun raw => ?_, by decide, by decide, by decide,
    by decide, by decide⟩
  simp [compareResponses]

/-- C6: The prompt enhancer is a pure function, identical for both
backends, and the original question appears verbatim as a substring (in
fact a suffix) of the enhanced prompt. -/
theorem claim6_prompt_enhancer :
    (∀ q, geminiEnhancedPrompt q = groqEnhancedPrompt q) ∧
    (∀ q, ∃ pre, geminiEnhancedPrompt q = pre ++ q) ∧
    (∀ q, ∃ pre, groqEnhancedPrompt q = pre ++ q) :=
  ⟨fun _ => rfl, fun _ => ⟨_, rfl⟩, fun _ => ⟨_, rfl⟩⟩

/-- C7 counterexample: a successful remote result with no candidates — and
likewise one with no parts, or with a non-text first part — makes the
Gemini client fault while extracting the first text part (modelled by
`none`, a panic) instead of returning a `GenerationError`, refuting the
claim that every remote result yields an answer or an error value. -/
theorem claim7_counterexample :
    getGeminiResponse (Except.ok ⟨[]⟩) = none ∧
    getGeminiResponse (Except.ok ⟨[⟨⟨[]⟩⟩]⟩) = none ∧
    getGeminiResponse (Except.ok ⟨[⟨⟨[GenaiPart.nonText]⟩⟩]⟩) = none :=
  ⟨rfl, rfl, rfl⟩

/-- C7 amended: the Gemini client returns a `GenerationError` when the
remote call errors and an `AnsweredResponse` when the first part of the
first candidate is text; but when the call succeeds with no candidates, no
parts, or a non-text first part, it faults (panics) instead of returning an
error value. -/
theorem claim7_amended :
    (∀ e, getGeminiResponse (Except.error e) =
      some (Except.error ("failed to generate Gemini response: " ++ e))) ∧
    (∀ s ps cs, getGeminiResponse (Except.ok ⟨⟨⟨GenaiPart.text s :: ps⟩⟩ :: cs⟩) =
      some (Except.ok ⟨"Gemini", s⟩)) ∧
    (∀ resp, getGeminiResponse (Except.ok resp) = none ↔
      resp.Candidates = [] ∨ ∃ c cs, resp.Candidates = c :: cs ∧
        (c.Content.Parts = [] ∨ ∃ ps, c.Content.Parts = GenaiPart.nonText :: ps)) := by
  refine ⟨fun e => rfl, fun s ps cs => rfl, fun resp => ?_⟩
  rcases resp with ⟨cands⟩
  cases cands with
  | nil => simp [getGeminiResponse, extractFirstText]
  | cons c cs =>
    rcases c with ⟨⟨parts⟩⟩
    cases parts with
    | nil => simp [getGeminiResponse, extractFirstText]
    | cons p ps =>
      cases p with
      | text s => simp [getGeminiResponse, extractFirstText]
      | nonText => simp [getGeminiResponse, extractFirstText]

/-- C9: With a zero or negative retry budget the orchestrator makes no
backend or judge calls (empty call trace, zero attempts entered) and
immediately returns the exhausted error reporting that budget and a nil
last error for each backend. -/
theorem claim9_nonpositive_budget (env : Nat → AttemptEnv) (config : Config)
    (hm : config.MaxRetries ≤ 0) :
    processQuestion env config =
      ⟨Except.error ("failed to get responses after " ++ toString config.MaxRetries ++
        " attempts. Gemini error: " ++ fmtErr none ++ ", Groq error: " ++ fmtErr none),
       0, []⟩ := by
  have h0 : config.MaxRetries.toNat = 0 := by omega
  simp only [processQuestion, h0]
  rfl

def cfgNeg : Config := ⟨"gkey", "qkey", -2⟩

/-- Witness for C9 at maxRetries = -2: no calls, zero attempts, and the
error message reports "-2 attempts" with nil errors for both backends. -/
theorem claim9_witness :
    processQuestion envAgree cfgNeg =
      ⟨Except.error
        "failed to get responses after -2 attempts. Gemini error: <nil>, Groq error: <nil>",
       0, []⟩ :=
  (claim9_nonpositive_budget envAgree cfgNeg (by decide)).trans (by decide)

def envKeep : Nat → AttemptEnv := fun n =>
  if n = 0 then ⟨.ok ⟨"Gemini", "g0"⟩, .ok ⟨"Groq", "q0"⟩, .ok "false"⟩
  else ⟨.error "gemini down", .ok ⟨"Groq", "q1"⟩, .ok "false"⟩

def envDrop : Nat → AttemptEnv := fun n =>
  if n = 0 then ⟨.error "gemini down early", .ok ⟨"Groq", "qX"⟩, .ok "false"⟩
  else ⟨.error "gemini down", .ok ⟨"Groq", "q1"⟩, .ok "false"⟩

def cfgTwo : Config := ⟨"gkey", "qkey", 2⟩

/-- C2 counterexample: two runs whose last attempts are identical and in
which the judge never returns true nevertheless produce different final
outputs, so the final output is not built only from the last attempt's
data.  Concretely, in the first run the Groq answer "q0" from attempt 0 —
not the last attempt, whose Groq call was never reached — appears verbatim
in the final output. -/
theorem claim2_counterexample :
    envKeep 1 = envDrop 1 ∧
    attemptResult (envKeep 0) = none ∧ attemptResult (envKeep 1) = none ∧
    attemptResult (envDrop 0) = none ∧ attemptResult (envDrop 1) = none ∧
    (processQuestion envKeep cfgTwo).result =
      Except.ok
        "Responses after 2 attempts:\n\nGemini Response:\nError getting response\n\nGroq Response:\nq0" ∧
    (processQuestion envDrop cfgTwo).result =
      Except.error
        "failed to get responses after 2 attempts. Gemini error: gemini down, Groq error: <nil>" := by
  decide

/-- C2 amended: if the judge never returns true within the budget, exactly
`maxRetries` attempts execute (none when the budget is non-positive), and
the final output is built from the folded loop variables — the most
recently stored answer and most recently recorded error per backend, which
for the Groq side may survive from an attempt before the last; the Gemini
answer slot always reflects the last attempt, since it is reassigned on
every attempt. -/
theorem claim2_amended (env : Nat → AttemptEnv) (config : Config)
    (h : ∀ j, j < config.MaxRetries.toNat → attemptResult (env j) = none) :
    (processQuestion env config).attemptsRun = config.MaxRetries.toNat ∧
    (processQuestion env config).result =
      exhaustedOutput config.MaxRetries
        (foldAttempts env 0 config.MaxRetries.toNat initialState) ∧
    (∀ n, config.MaxRetries.toNat = n + 1 →
      (foldAttempts env 0 config.MaxRetries.toNat initialState).geminiResp =
        respOf (env n).gemini) := by
  have hloop := runLoop_exhaust env config.MaxRetries.toNat 0 initialState
    (fun j hj => by simpa using h j hj)
  have hpq := processQuestion_of_res_none env config hloop.1
  refine ⟨?_, ?_, ?_⟩
  · rw [hpq]
    exact hloop.2.1
  · rw [hpq]
    show exhaustedOutput config.MaxRetries
      (runLoop env 0 config.MaxRetries.toNat initialState).st = _
    rw [hloop.2.2]
  · intro n hn
    rw [hn]
    have := foldAttempts_geminiResp env n 0 initialState
    simpa using this

/-- Witness for C2 (amended): the first counterexample run exhausts both
attempts and its output is the one built from the folded loop variables. -/
theorem claim2_amended_witness :
    (processQuestion envKeep cfgTwo).attemptsRun = 2 ∧
    (processQuestion envKeep cfgTwo).result =
      exhaustedOutput 2 (foldAttempts envKeep 0 2 initialState) :=
  have h := claim2_amended envKeep cfgTwo (fun j hj => by
    have h2 : j < 2 := hj
    interval_cases j <;> decide)
  ⟨h.1, h.2.1⟩

def envGroqFails : Nat → AttemptEnv :=
  fun _ => ⟨.ok ⟨"Gemini", "ga"⟩, .error "groq down", .ok "true"⟩

def envGeminiFails : Nat → AttemptEnv :=
  fun _ => ⟨.error "gemini down", .ok ⟨"Groq", "qb"⟩, .ok "true"⟩

def cfgOne : Config := ⟨"gkey", "qkey", 1⟩

/-- C3 counterexample: Backend B (Groq) fails on every attempt on which it
is reached, yet the orchestrator does not end in the no-answers error
state: because the Gemini call succeeded on the last attempt, it returns
the formatted side-by-side output with a placeholder for Groq instead of an
error. -/
theorem claim3_counterexample :
    (envGroqFails 0).groq = Except.error "groq down" ∧
    (processQuestion envGroqFails cfgOne).result =
      Except.ok
        "Responses after 1 attempts:\n\nGemini Response:\nga\n\nGroq Response:\nError getting response" := by
  decide

/-- C3 amended: if Backend A (Gemini) fails on every attempt, the run ends
in the no-answers error embedding A's last error and the nil Groq error;
but if only Backend B (Groq) fails on every attempt while A succeeds, the
run instead returns the side-by-side output showing A's (formatted) answer
and an error placeholder for B. -/
theorem claim3_amended (env envB : Nat → AttemptEnv) (config : Config)
    (errs qerrs : Nat → String) (a : Response)
    (hm : 0 < config.MaxRetries)
    (hA : ∀ j, j < config.MaxRetries.toNat → (env j).gemini = .error (errs j))
    (hBgem : ∀ j, j < config.MaxRetries.toNat → (envB j).gemini = .ok a)
    (hBgroq : ∀ j, j < config.MaxRetries.toNat → (envB j).groq = .error (qerrs j)) :
    (processQuestion env config).result =
      Except.error ("failed to get responses after " ++ toString config.MaxRetries ++
        " attempts. Gemini error: " ++ errs (config.MaxRetries.toNat - 1) ++
        ", Groq error: " ++ fmtErr none) ∧
    (processQuestion envB config).result =
      Except.ok ("Responses after " ++ toString config.MaxRetries ++
        " attempts:\n\nGemini Response:\n" ++ formatResponse a.Content ++
        "\n\nGroq Response:\n" ++ "Error getting response") := by
  obtain ⟨n, hn⟩ : ∃ n, config.MaxRetries.toNat = n + 1 :=
    ⟨config.MaxRetries.toNat - 1, by omega⟩
  refine ⟨(processQuestion_all_gemini_fail env config errs hm hA).2, ?_⟩
  have hfall : ∀ j, j < config.MaxRetries.toNat → attemptResult (envB j) = none :=
    fun j hj => attemptResult_groq_error (envB j) (qerrs j) (hBgroq j hj)
  have hloop := runLoop_exhaust envB config.MaxRetries.toNat 0 initialState
    (fun j hj => by simpa using hfall j hj)
  have hpq := processQuestion_of_res_none envB config hloop.1
  rw [hpq]
  show exhaustedOutput config.MaxRetries
    (runLoop envB 0 config.MaxRetries.toNat initialState).st = _
  rw [hloop.2.2, hn,
    foldAttempts_groq_fail envB a qerrs n 0 initialState (fun j hj => by
      constructor
      · simpa using hBgem j (by omega)
      · simpa using hBgroq j (by omega))]
  rfl

/-- Witness for C3 (amended): with a 1-attempt budget, a run whose Gemini
call always fails returns the no-answers error; a run whose Groq call
always fails (Gemini succeeding with "ga") returns the side-by-side
output. -/
theorem claim3_witness :
    (processQuestion envGeminiFails cfgOne).result =
      Except.error
        "failed to get responses after 1 attempts. Gemini error: gemini down, Groq error: <nil>" ∧
    (processQuestion envGroqFails cfgOne).result =
      Except.ok
        "Responses after 1 attempts:\n\nGemini Response:\nga\n\nGroq Response:\nError getting response" :=
  have h := claim3_amended envGeminiFails envGroqFails cfgOne
    (fun _ => "gemini down") (fun _ => "groq down") ⟨"Gemini", "ga"⟩
    (by decide) (fun j hj => rfl) (fun j hj => rfl) (fun j hj => rfl)
  ⟨h.1.trans (by decide), h.2.trans (by decide)⟩

/-- C5: On an attempt whose Gemini call fails, the loop records the error,
issues no Groq or judge call on that attempt, and falls through to the next
attempt; and when Gemini fails on every attempt of a positive budget, the
whole budget is consumed and the final no-answers error carries Gemini's
last error together with the nil (never recorded) Groq error. -/
theorem claim5_gemini_failure_skips (env : Nat → AttemptEnv) (config : Config)
    (st : LoopState) (n : Nat) (e : String) (errs : Nat → String)
    (hn : (env n).gemini = .error e)
    (hm : 0 < config.MaxRetries)
    (hall : ∀ j, j < config.MaxRetries.toNat → (env j).gemini = .error (errs j)) :
    attemptEvents (env n) n = [CallEvent.geminiCall n] ∧
    attemptResult (env n) = none ∧
    (attemptNewState (env n) st).lastGeminiErr = some e ∧
    (processQuestion env config).attemptsRun = config.MaxRetries.toNat ∧
    (processQuestion env config).result =
      Except.error ("failed to get responses after " ++ toString config.MaxRetries ++
        " attempts. Gemini error: " ++ errs (config.MaxRetries.toNat - 1) ++
        ", Groq error: " ++ fmtErr none) := by
  have hpq := processQuestion_all_gemini_fail env config errs hm hall
  refine ⟨attemptEvents_gemini_error (env n) n e hn,
    attemptResult_gemini_error (env n) e hn, ?_, hpq.1, hpq.2⟩
  rw [attemptNewState_gemini_error (env n) st e hn]

/-- Witness for C5: Gemini failing on the single attempt of a 1-attempt
budget issues only the Gemini call and yields the no-answers error with a
nil Groq error. -/
theorem claim5_witness :
    attemptEvents (envGeminiFails 0) 0 = [CallEvent.geminiCall 0] ∧
    (processQuestion envGeminiFails cfgOne).attemptsRun = 1 ∧
    (processQuestion envGeminiFails cfgOne).result =
      Except.error
        "failed to get responses after 1 attempts. Gemini error: gemini down, Groq error: <nil>" :=
  have h := claim5_gemini_failure_skips envGeminiFails cfgOne initialState 0
    "gemini down" (fun _ => "gemini down") rfl (by decide) (fun j hj => rfl)
  ⟨h.1, h.2.2.2.1, h.2.2.2.2.trans (by decide)⟩

/-- C8: After startup no error is fatal to the process: the interactive
loop handles every `processQuestion` outcome by printing or logging and
then continuing; a run never consumes more attempts than the configured
budget; and startup is fatal exactly when the `.env` load fails or one of
the two credentials is missing. -/
theorem claim8_no_runtime_fatal :
    (∀ (env : Nat → AttemptEnv) (config : Config) (msg : String),
      sessionStep (processQuestion env config).result ≠ SessionOutcome.fatal msg) ∧
    (∀ (env : Nat → AttemptEnv) (config : Config),
      (processQuestion env config).attemptsRun ≤ config.MaxRetries.toNat) ∧
    (∀ (e : StartupEnv) (maxRetries : Int), startup e maxRetries = none ↔
      e.envLoadOk = false ∨ e.geminiKey = "" ∨ e.groqKey = "") := by
  refine ⟨fun env config msg => ?_, fun env config => ?_, fun e maxRetries => ?_⟩
  · cases h : (processQuestion env config).result <;> simp [sessionStep, h]
  · rw [processQuestion_attemptsRun]
    exact runLoop_count_le env config.MaxRetries.toNat 0 initialState
  · rcases e with ⟨ok, gk, qk⟩
    cases ok with
    | false => simp [startup]
    | true =>
      by_cases hg : gk = ""
      · subst hg
        simp [startup]
      · by_cases hq : qk = ""
        · subst hq
          simp [startup, hg]
        · simp [startup, hg, hq]

/-- Witness for C8: a concrete run is handled non-fatally within budget,
and startup with an empty Gemini key is fatal. -/
theorem claim8_witness :
    sessionStep (processQuestion envAgree cfgThree).result ≠ SessionOutcome.fatal "boom" ∧
    (processQuestion envAgree cfgThree).attemptsRun ≤ 3 ∧
    startup ⟨true, "", "qkey"⟩ 3 = none :=
  ⟨claim8_no_runtime_fatal.1 envAgree cfgThree "boom",
   claim8_no_runtime_fatal.2.1 envAgree cfgThree,
   (claim8_no_runtime_fatal.2.2 ⟨true, "", "qkey"⟩ 3).mpr (Or.inr (Or.inl rfl))⟩

/-- C10: The success path returns Gemini's content byte-for-byte (even when
it contains "Option" or "Summary"), while the exhausted side-by-side output
passes each displayed response through `formatResponse`, which inserts a
newline before every occurrence of "Option" and two newlines before every
occurrence of "Summary". -/
theorem claim10_formatting_asymmetry (a b : Response) (config : Config) (raw : String)
    (hm : 0 < config.MaxRetries)
    (htrue : goToLower (goTrimSpace raw) = "true") :
    (processQuestion (fun _ => ⟨.ok a, .ok b, .ok raw⟩) config).result =
      Except.ok a.Content ∧
    (processQuestion (fun _ => ⟨.ok a, .ok b, .ok "false"⟩) config).result =
      Except.ok ("Responses after " ++ toString config.MaxRetries ++
        " attempts:\n\nGemini Response:\n" ++ formatResponse a.Content ++
        "\n\nGroq Response:\n" ++ formatResponse b.Content) ∧
    formatResponse "Option A: yes. Option B: no. Summary: A only." =
      "\nOption A: yes. \nOption B: no. \n\nSummary: A only." := by
  obtain ⟨n, hn⟩ : ∃ n, config.MaxRetries.toNat = n + 1 :=
    ⟨config.MaxRetries.toNat - 1, by omega⟩
  refine ⟨?_, ?_, by decide⟩
  · have hres : attemptResult ((fun _ => (⟨.ok a, .ok b, .ok raw⟩ : AttemptEnv)) 0) =
        some a.Content := by
      simp [attemptResult, compareResponses, htrue]
    have hs := runLoop_success (fun _ => ⟨.ok a, .ok b, .ok raw⟩) a.Content 0 0
      config.MaxRetries.toNat initialState (by omega)
      (fun j hj => absurd hj (Nat.not_lt_zero j)) hres
    rw [processQuestion_of_res_some _ config a.Content hs.1]
  · have hfall : ∀ j, j < config.MaxRetries.toNat →
        attemptResult ((fun _ => (⟨.ok a, .ok b, .ok "false"⟩ : AttemptEnv)) j) = none := by
      intro j hj
      have hb : (goToLower (goTrimSpace "false") == "true") = false := by decide
      simp [attemptResult, compareResponses, hb]
    have hloop := runLoop_exhaust (fun _ => ⟨.ok a, .ok b, .ok "false"⟩)
      config.MaxRetries.toNat 0 initialState (fun j hj => hfall j hj)
    rw [processQuestion_of_res_none _ config hloop.1]
    show exhaustedOutput config.MaxRetries _ = _
    rw [hloop.2.2, hn,
      foldAttempts_both_ok (fun _ => ⟨.ok a, .ok b, .ok "false"⟩) a b
        (fun j => ⟨rfl, rfl⟩) n 0 initialState]
    rfl

/-- Witness for C10: an agreed answer containing "Option" is returned
unmodified, while the same answer shown on the exhausted path gains an
inserted newline. -/
theorem claim10_witness :
    (processQuestion
        (fun _ => ⟨.ok ⟨"Gemini", "Option A"⟩, .ok ⟨"Groq", "B"⟩, .ok "true"⟩)
        cfgTwo).result = Except.ok "Option A" ∧
    (processQuestion
        (fun _ => ⟨.ok ⟨"Gemini", "Option A"⟩, .ok ⟨"Groq", "B"⟩, .ok "false"⟩)
        cfgTwo).result =
      Except.ok "Responses after 2 attempts:\n\nGemini Response:\n\nOption A\n\nGroq Response:\nB" :=
  have h := claim10_formatting_asymmetry ⟨"Gemini", "Option A"⟩ ⟨"Groq", "B"⟩ cfgTwo
    "true" (by decide) (by decide)
  ⟨h.1, h.2.1.trans (by decide)⟩

end AnswersOnly
